import Mathlib

/-!
Verification of the standing-orders backend (src/server.js) against its
natural-language specification.  The JavaScript source is shallowly embedded:
pure computations become Lean functions, remote calls become explicit oracle
parameters, thrown exceptions become `Except` errors, and byte buffers become
`List Nat` with every element below 256.
-/

set_option maxRecDepth 100000

namespace Spec2Proof

/-! ### 32-bit word arithmetic (SHA-256 primitives)

Machine words are `Nat` reduced modulo 2^32. -/

def M32 : Nat := 4294967296

def add32 (a b : Nat) : Nat := (a + b) % M32

def xor32 (a b : Nat) : Nat := a ^^^ b

def and32 (a b : Nat) : Nat := a &&& b

def not32 (a : Nat) : Nat := a ^^^ 4294967295

def rotr32 (n x : Nat) : Nat := (x >>> n) + ((x % (1 <<< n)) <<< (32 - n))

def shr32 (n x : Nat) : Nat := x >>> n

/-! ### SHA-256 (FIPS 180-4), over byte lists -/

def hConst : List Nat :=
  [1779033703, 3144134277, 1013904242, 2773480762,
   1359893119, 2600822924, 528734635, 1541459225]

def kConst : List Nat :=
  [1116352408, 1899447441, 3049323471, 3921009573, 961987163, 1508970993,
   2453635748, 2870763221, 3624381080, 310598401, 607225278, 1426881987,
   1925078388, 2162078206, 2614888103, 3248222580, 3835390401, 4022224774,
   264347078, 604807628, 770255983, 1249150122, 1555081692, 1996064986,
   2554220882, 2821834349, 2952996808, 3210313671, 3336571891, 3584528711,
   113926993, 338241895, 666307205, 773529912, 1294757372, 1396182291,
   1695183700, 1986661051, 2177026350, 2456956037, 2730485921, 2820302411,
   3259730800, 3345764771, 3516065817, 3600352804, 4094571909, 275423344,
   430227734, 506948616, 659060556, 883997877, 958139571, 1322822218,
   1537002063, 1747873779, 1955562222, 2024104815, 2227730452, 2361852424,
   2428436474, 2756734187, 3204031479, 3329325298]

structure Hv where
  a : Nat
  b : Nat
  c : Nat
  d : Nat
  e : Nat
  f : Nat
  g : Nat
  h : Nat
deriving DecidableEq

def shaRound (st : Hv) (kw w : Nat) : Hv :=
  let s1 := xor32 (rotr32 6 st.e) (xor32 (rotr32 11 st.e) (rotr32 25 st.e))
  let ch := xor32 (and32 st.e st.f) (and32 (not32 st.e) st.g)
  let temp1 := add32 st.h (add32 s1 (add32 ch (add32 kw w)))
  let s0 := xor32 (rotr32 2 st.a) (xor32 (rotr32 13 st.a) (rotr32 22 st.a))
  let maj := xor32 (and32 st.a st.b) (xor32 (and32 st.a st.c) (and32 st.b st.c))
  let temp2 := add32 s0 maj
  ⟨add32 temp1 temp2, st.a, st.b, st.c, add32 st.d temp1, st.e, st.f, st.g⟩

def sig0 (x : Nat) : Nat := xor32 (rotr32 7 x) (xor32 (rotr32 18 x) (shr32 3 x))

def sig1 (x : Nat) : Nat := xor32 (rotr32 17 x) (xor32 (rotr32 19 x) (shr32 10 x))

def extendSchedule : List Nat → Nat → List Nat
  | ws, 0 => ws
  | ws, n + 1 =>
    let i := ws.length
    let w := add32 (ws.getD (i - 16) 0)
              (add32 (sig0 (ws.getD (i - 15) 0))
                (add32 (ws.getD (i - 7) 0) (sig1 (ws.getD (i - 2) 0))))
    extendSchedule (ws ++ [w]) n

def compressBlock (hv : List Nat) (block : List Nat) : List Nat :=
  let ws := extendSchedule block 48
  let st0 : Hv := ⟨hv.getD 0 0, hv.getD 1 0, hv.getD 2 0, hv.getD 3 0,
                   hv.getD 4 0, hv.getD 5 0, hv.getD 6 0, hv.getD 7 0⟩
  let stF := (kConst.zip ws).foldl (fun st p => shaRound st p.1 p.2) st0
  [add32 (hv.getD 0 0) stF.a, add32 (hv.getD 1 0) stF.b,
   add32 (hv.getD 2 0) stF.c, add32 (hv.getD 3 0) stF.d,
   add32 (hv.getD 4 0) stF.e, add32 (hv.getD 5 0) stF.f,
   add32 (hv.getD 6 0) stF.g, add32 (hv.getD 7 0) stF.h]

def padMessage (msg : List Nat) : List Nat :=
  let l := msg.length
  let zeros := (64 + 56 - ((l + 1) % 64)) % 64
  let bitLen := 8 * l
  msg ++ [128] ++ List.replicate zeros 0 ++
    (List.range 8).map (fun i => (bitLen >>> (8 * (7 - i))) % 256)

def bytesToWords : List Nat → List Nat
  | b0 :: b1 :: b2 :: b3 :: rest =>
    (((b0 * 256 + b1) * 256 + b2) * 256 + b3) :: bytesToWords rest
  | _ => []

def toBlocks : List Nat → List (List Nat)
  | a1 :: a2 :: a3 :: a4 :: a5 :: a6 :: a7 :: a8 ::
    a9 :: a10 :: a11 :: a12 :: a13 :: a14 :: a15 :: a16 :: rest =>
    [a1, a2, a3, a4, a5, a6, a7, a8, a9, a10, a11, a12, a13, a14, a15, a16] :: toBlocks rest
  | [] => []
  | other => [other]

def wordsToBytes (ws : List Nat) : List Nat :=
  (ws.map (fun w => [(w >>> 24) % 256, (w >>> 16) % 256, (w >>> 8) % 256, w % 256])).flatten

def sha256 (msg : List Nat) : List Nat :=
  wordsToBytes ((toBlocks (bytesToWords (padMessage msg))).foldl compressBlock hConst)

/-- HMAC-SHA-256 (RFC 2104) with the standard 64-byte block size. -/
def hmacSha256 (key msg : List Nat) : List Nat :=
  let k0 := if 64 < key.length then sha256 key else key
  let kp := k0 ++ List.replicate (64 - k0.length) 0
  sha256 ((kp.map (fun b => b ^^^ 92)) ++ sha256 ((kp.map (fun b => b ^^^ 54)) ++ msg))

/-! ### Hex encoding and Node `Buffer.from(s, "hex")` decoding -/

def hexDigit (n : Nat) : Char :=
  if n < 10 then Char.ofNat (48 + n) else Char.ofNat (87 + n)

/-- Lowercase hex encoding, as produced by Node `hash.digest("hex")`. -/
def hexEncode (bs : List Nat) : String :=
  String.mk ((bs.map (fun b => [hexDigit (b / 16), hexDigit (b % 16)])).flatten)

/-- Value of a hex character; case-insensitive, as in Node's decoder. -/
def hexVal (c : Char) : Option Nat :=
  if 48 ≤ c.toNat ∧ c.toNat ≤ 57 then some (c.toNat - 48)
  else if 97 ≤ c.toNat ∧ c.toNat ≤ 102 then some (c.toNat - 87)
  else if 65 ≤ c.toNat ∧ c.toNat ≤ 70 then some (c.toNat - 55)
  else none

/-- Node `Buffer.from(s, "hex")`: decode pairs of hex digits greedily and
stop (without error) at the first character pair that is not valid hex, or
at a trailing lone character. -/
def hexDecodeChars : List Char → List Nat
  | c1 :: c2 :: rest =>
    match hexVal c1, hexVal c2 with
    | some h1, some h2 => (16 * h1 + h2) :: hexDecodeChars rest
    | _, _ => []
  | _ => []

def bufFromHex (s : String) : List Nat := hexDecodeChars s.data

/-! ### UTF-8 encoding of strings (Node `hash.update(string)` default) -/

def utf8Char (c : Char) : List Nat :=
  let n := c.toNat
  if n < 128 then [n]
  else if n < 2048 then [192 + n / 64, 128 + n % 64]
  else if n < 65536 then [224 + n / 4096, 128 + (n / 64) % 64, 128 + n % 64]
  else [240 + n / 262144, 128 + (n / 4096) % 64, 128 + (n / 64) % 64, 128 + n % 64]

def utf8Encode (s : String) : List Nat := (s.data.map utf8Char).flatten

/-! ### Thrown JavaScript exceptions -/

/-- The exceptions the embedded code can throw.  `typeError` is
`crypto.createHmac` called with an `undefined` key; `referenceErrorM` is the
`m is not defined` reference in `getStanding`; `remote s` is a failed remote
call surfaced to the caller (carrying an identifying code). -/
inductive JsErr where
  | typeError
  | referenceErrorM
  | remote (code : Nat)
deriving DecidableEq

instance {ε α : Type} [DecidableEq ε] [DecidableEq α] : DecidableEq (Except ε α) :=
  fun a b =>
    match a, b with
    | .ok x, .ok y => decidable_of_iff (x = y) (by simp)
    | .error x, .error y => decidable_of_iff (x = y) (by simp)
    | .ok _, .error _ => isFalse (by simp)
    | .error _, .ok _ => isFalse (by simp)

/-! ### Signature verifier (`verifyProxy`, src/server.js:101-111) -/

def insertStr (x : String) : List String → List String
  | [] => [x]
  | y :: ys => if x < y then x :: y :: ys else y :: insertStr x ys

/-- `Array.prototype.sort()` on the key list: lexicographic string order. -/
def sortStrings : List String → List String
  | [] => []
  | x :: xs => insertStr x (sortStrings xs)

/-- `Object.keys(params).sort().map(k => k + "=" + params[k]).join("")`. -/
def buildMessage (params : List (String × String)) : String :=
  String.join ((sortStrings (params.map Prod.fst)).map
    (fun k => k ++ "=" ++ ((params.lookup k).getD "")))

/-- `verifyProxy` (src/server.js:101-111).  `params` is `req.query` minus the
`signature` parameter; `signature` is that parameter (`none` when absent).
`crypto.timingSafeEqual` throws on length mismatch and the `try` turns that
into `false`, so the comparison is: equal lengths and equal bytes. -/
def verifyProxy : Option String → List (String × String) → Option String → Except JsErr Bool
  | _, _, none => Except.ok false
  | secret, params, some sig =>
    if sig = "" then Except.ok false
    else
      match secret with
      | none => Except.error JsErr.typeError
      | some sec =>
        let digest := hexEncode (hmacSha256 (utf8Encode sec) (utf8Encode (buildMessage params)))
        let a := bufFromHex sig
        let b := bufFromHex digest
        Except.ok (if a.length = b.length then decide (a = b) else false)

/-- The signature the storefront proxy computes: the same
sort/concatenate/HMAC-SHA-256/hex procedure the verifier uses. -/
def correctSignature (sec : String) (params : List (String × String)) : String :=
  hexEncode (hmacSha256 (utf8Encode sec) (utf8Encode (buildMessage params)))

/-! Supporting lemmas: SHA-256 output shape and hex round-trip. -/

/-! ### Resilient call executor (`fetchWithRetry`, src/server.js:30-74) -/

/-- What one attempt's `fetch` does: resolve to a response carrying a status
and an optional `Retry-After` header, or reject (network error, or the abort
fired by the per-attempt timeout).  The header is modelled after the
`Number(...)` coercion the code applies: `some n` for a numeric header value
`n` (possibly zero or negative), `none` when the header is absent or not
numeric — in both of those cases `Number` yields `0` or `NaN`, neither of
which passes the code's `Number.isFinite(ra) && ra > 0` test. -/
inductive AttemptResult where
  | response (status : Nat) (retryAfter : Option Int)
  | netError (code : Nat)
deriving DecidableEq

/-- The observable result of `fetchWithRetry`: the response returned, the
error rethrown, or the trailing
`throw new Error("fetchWithRetry exhausted attempts")` after the loop. -/
inductive FetchOutcome where
  | response (status : Nat) (retryAfter : Option Int)
  | thrown (code : Nat)
  | exhausted
deriving DecidableEq

structure FetchTrace where
  outcome : FetchOutcome
  attempts : Nat
  waits : List Nat
deriving DecidableEq

/-- `res.ok`: status in the 200-299 range. -/
def isOk (status : Nat) : Bool := decide (200 ≤ status) && decide (status ≤ 299)

/-- `res.status === 429 || (res.status >= 500 && res.status <= 599)`. -/
def isRetryable (status : Nat) : Bool :=
  status == 429 || (decide (500 ≤ status) && decide (status ≤ 599))

/-- The delay computed before a retry of a failed response:
`Number.isFinite(ra) && ra > 0 ? ra * 1000 : backoffMs * Math.pow(2, attempt)`. -/
def backoffWait (backoffMs attempt : Nat) (retryAfter : Option Int) : Nat :=
  match retryAfter with
  | some ra => if 0 < ra then ra.toNat * 1000 else backoffMs * 2 ^ attempt
  | none => backoffMs * 2 ^ attempt

/-- The attempt loop of `fetchWithRetry`.  `fuel` counts the remaining
iterations allowed by the loop condition `attempt <= retries`; it is
`retries + 1 - attempt` at every call.  `fuel = 0` is the loop condition
failing, after which the trailing throw runs (`.exhausted`). -/
def fetchLoop (f : Nat → AttemptResult) (retries backoffMs : Nat) :
    Nat → Nat → FetchTrace
  | _, 0 => ⟨.exhausted, 0, []⟩
  | attempt, fuel + 1 =>
    match f attempt with
    | .response st ra =>
      if !isOk st && isRetryable st && decide (attempt < retries) then
        let w := backoffWait backoffMs attempt ra
        let rest := fetchLoop f retries backoffMs (attempt + 1) fuel
        ⟨rest.outcome, rest.attempts + 1, w :: rest.waits⟩
      else
        ⟨.response st ra, 1, []⟩
    | .netError c =>
      if retries ≤ attempt then
        ⟨.thrown c, 1, []⟩
      else
        let w := backoffMs * 2 ^ attempt
        let rest := fetchLoop f retries backoffMs (attempt + 1) fuel
        ⟨rest.outcome, rest.attempts + 1, w :: rest.waits⟩

/-- `fetchWithRetry(url, init, {retries, timeoutMs, backoffMs})`, with the
per-attempt network behaviour abstracted as `f`.  Total attempts are
`retries + 1`. -/
def fetchWithRetry (f : Nat → AttemptResult) (retries backoffMs : Nat) : FetchTrace :=
  fetchLoop f retries backoffMs 0 (retries + 1)

/-! ### JSON values -/

inductive Json where
  | null
  | bool (b : Bool)
  | num (n : Int)
  | str (s : String)
  | arr (elems : List Json)
  | obj (fields : List (String × Json))

/-- Property access `o[k]` (or `o.k`) on a JSON value: `some v` when `o` is
an object carrying key `k`, `none` (JS `undefined`) otherwise.  (JS would
throw on `null[k]`; the stored documents the job reads never put `null` in
the products array, and the distinction cannot affect the claims, which only
access objects.) -/
def jsGet : Json → String → Option Json
  | .obj fields, k => fields.lookup k
  | _, _ => none

/-- JS falsiness of a parsed-JSON value (`0`, `""`, `false`, `null`). -/
def jsFalsy : Json → Bool
  | .null => true
  | .bool b => !b
  | .num n => n == 0
  | .str s => s == ""
  | _ => false

/-- Decimal digit string to value; `none` when a non-digit appears. -/
def decVal (cs : List Char) : Option Nat :=
  cs.foldl
    (fun acc c =>
      match acc with
      | none => none
      | some v =>
        if 48 ≤ c.toNat ∧ c.toNat ≤ 57 then some (10 * v + (c.toNat - 48)) else none)
    (some 0)

/-- `Number(v)` for a JSON value, with `none` for NaN.  String parsing is
modelled for plain decimal integers; other string shapes (signs, exponents)
and array/object coercions are modelled as NaN — for the job's
`quantity > 0` filter this is observationally the same for every value a
stored quantity can take except non-integer numerics, which no claim
exercises. -/
def toNumber : Json → Option Int
  | .null => some 0
  | .bool b => some (if b then 1 else 0)
  | .num n => some n
  | .str s => (decVal s.data).map Int.ofNat
  | .arr _ => none
  | .obj _ => none

/-! ### Preference store (`getStanding`, src/server.js:194-198) -/

structure Metafield where
  mfId : Nat
  ns : String
  key : String
  value : String
deriving DecidableEq

/-- `(json.metafields || []).find(m => m.namespace === "standing" && m.key === "weekly")`. -/
def findStanding (mfs : List Metafield) : Option Metafield :=
  mfs.find? (fun m => m.ns == "standing" && m.key == "weekly")

/-- `getStanding` applied to the metafields list the remote call returned.
The source's final line is `return mf ? JSON.parse(m.value) : null;` — but
`m` is only the `find` callback's parameter and is not in scope there, so
whenever a matching metafield exists the code evaluates `m.value` and throws
`ReferenceError: m is not defined`; `JSON.parse` is never reached.  Only
when no metafield matches does it return `null`. -/
def getStanding (mfs : List Metafield) : Except JsErr (Option Json) :=
  match findStanding mfs with
  | some _ => .error .referenceErrorM
  | none => .ok none

/-! ### Batch job line items (src/server.js:219-222) -/

/-- One element of the mapped `items` array:
`{ variantId: p.variantId, quantity: Number(p[dayKey] || 0) }`, with
`quantity = none` for NaN. -/
structure LineItem where
  variantId : Option Json
  quantity : Option Int

/-- `Number(p[dayKey] || 0)`: a missing or falsy weekday property gives 0,
otherwise the value is number-coerced.  Note the code reads `p[dayKey]`
directly on the product entry — not inside a `quantityPerWeekday` object. -/
def itemQuantity (p : Json) (dayKey : String) : Option Int :=
  match jsGet p dayKey with
  | none => some 0
  | some v => if jsFalsy v then some 0 else toNumber v

/-- `data.products.map(p => ...).filter(i => i.quantity > 0)`; a NaN
quantity fails `> 0` and is filtered out. -/
def buildItems (products : List Json) (dayKey : String) : List LineItem :=
  (products.map fun p => LineItem.mk (jsGet p "variantId") (itemQuantity p dayKey)).filter
    (fun i =>
      match i.quantity with
      | some q => decide (0 < q)
      | none => false)

/-- `if (!data || !Array.isArray(data.products)) continue;`: the products
list, or `none` when the document is falsy or its `products` member is not
an array. -/
def dataProducts (data : Json) : Option (List Json) :=
  if jsFalsy data then none
  else
    match jsGet data "products" with
    | some (.arr ps) => some ps
    | _ => none

/-! ### Cursor pagination iterator (`iterateCustomers`, src/server.js:173-192) -/

def listStartsWith : List Char → List Char → Bool
  | [], _ => true
  | _ :: _, [] => false
  | p :: ps, c :: cs => p == c && listStartsWith ps cs

def pageInfoPat : List Char := "page_info=".data

/-- Feasible end offsets for the regex's greedy `[^>]+` before `page_info=`:
the literal must start at index ≥ 1 (there must be a character for `[^>]+`
to eat after `<`) and leave ≥ 1 character for the capture group. -/
def patOffsets (run : List Char) : List Nat :=
  (List.range run.length).filter fun o =>
    decide (1 ≤ o) && decide (o + pageInfoPat.length < run.length) &&
      listStartsWith pageInfoPat (run.drop o)

/-- Try the regex `<[^>]+page_info=([^>]+)>; rel="next"` at a position just
after a `<`: the stretch of non-`>` characters must be followed by
`>; rel="next"`, and the capture is everything after the last feasible
`page_info=` occurrence (the greedy `[^>]+` backtracks minimally). -/
def matchAt (rest : List Char) : Option (List Char) :=
  let run := rest.takeWhile (fun c => c != '>')
  let after := rest.drop run.length
  if listStartsWith (">; rel=\"next\"").data after then
    match (patOffsets run).getLast? with
    | some o => some (run.drop (o + pageInfoPat.length))
    | none => none
  else none

/-- `link.match(/<[^>]+page_info=([^>]+)>; rel="next"/)`: the capture group
of the leftmost match, or `none`. -/
def extractNext : List Char → Option (List Char)
  | [] => none
  | c :: cs =>
    if c == '<' then
      match matchAt cs with
      | some tok => some tok
      | none => extractNext cs
    else extractNext cs

def extractNextStr (link : String) : Option String :=
  (extractNext link.data).map String.mk

/-- One page of the customers listing, keyed by the cursor used to fetch it:
the HTTP status, the `link` header (`""` when absent, per `|| ""`), and
`body.customers` (`[]` when absent, per `|| []`). -/
structure CustomersPage where
  status : Nat
  linkHeader : String
  customers : List Json

inductive IterEvent where
  | fetched (cursor : Option String)
  | yielded (id : Option Json)

inductive IterEnd where
  | done
  | threw (status : Nat)
  | fuelOut
deriving DecidableEq

/-- The `iterateCustomers` generator unrolled to its event trace: each
iteration fetches the page for the current cursor (`none` initially), throws
if the response is not ok, otherwise yields every element's `id` field in
response order and continues with the `rel="next"` token when one is
present.  `fuel` bounds the number of pages processed in the model; the
claims only concern runs whose cursor chain ends within the budget. -/
def iterateCustomers (env : Option String → CustomersPage) :
    Nat → Option String → List IterEvent × IterEnd
  | 0, _ => ([], .fuelOut)
  | fuel + 1, cursor =>
    let p := env cursor
    if isOk p.status then
      let yields := p.customers.map (fun c => IterEvent.yielded (jsGet c "id"))
      match extractNextStr p.linkHeader with
      | some tok =>
        let rest := iterateCustomers env fuel (some tok)
        (IterEvent.fetched cursor :: yields ++ rest.1, rest.2)
      | none => (IterEvent.fetched cursor :: yields, .done)
    else ([IterEvent.fetched cursor], .threw p.status)

/-- The cursors visited when following a token chain from `cursor`. -/
def cursorChain : Option String → List String → List (Option String)
  | c, [] => [c]
  | c, t :: ts => c :: cursorChain (some t) ts

/-- The chain hypothesis: each page's link header yields the next token in
`tokens`, and the page after the last token has no `rel="next"` link. -/
def chainLinks (env : Option String → CustomersPage) : Option String → List String → Bool
  | c, [] => (extractNextStr (env c).linkHeader).isNone
  | c, t :: ts => extractNextStr (env c).linkHeader == some t && chainLinks env (some t) ts

/-- The expected event trace for a token chain. -/
def chainTrace (env : Option String → CustomersPage) : Option String → List String → List IterEvent
  | c, [] => IterEvent.fetched c :: (env c).customers.map (fun x => IterEvent.yielded (jsGet x "id"))
  | c, t :: ts =>
    IterEvent.fetched c ::
      ((env c).customers.map (fun x => IterEvent.yielded (jsGet x "id")) ++
        chainTrace env (some t) ts)

/-- The customer ids of every page along a token chain, concatenated. -/
def chainIds (env : Option String → CustomersPage) : Option String → List String → List (Option Json)
  | c, [] => (env c).customers.map (fun x => jsGet x "id")
  | c, t :: ts => (env c).customers.map (fun x => jsGet x "id") ++ chainIds env (some t) ts

/-- Projection of a trace to the yielded ids. -/
def evYield : IterEvent → Option (Option Json)
  | .yielded i => some i
  | .fetched _ => none

/-! ### Batch job orchestrator (`POST /jobs/standing-orders/run`, src/server.js:213-236)

The per-customer remote operations are oracle parameters: `standing c`
models `getStanding(c)` (return a parsed document, return null, or throw),
`createDraft c items` the draft-order creation call (returning the new
draft's id), and `sendInvoice d` the invoice call for draft `d`.  The
customer-id sequence produced by the iterator is passed as a list. -/

structure RunEnv where
  standing : Nat → Except JsErr (Option Json)
  createDraft : Nat → List LineItem → Except JsErr Nat
  sendInvoice : Nat → Except JsErr Unit

/-- One iteration of the `for await` body for customer `cid`: `(r, d)` where
`r` is `ok none` for `continue`, `ok (some (cid, draftId))` for a customer
whose draft was created and invoiced, or the thrown error; `d` lists the
draft orders the iteration created remotely (its side effects). -/
def processCustomer (env : RunEnv) (dayKey : String) (cid : Nat) :
    Except JsErr (Option (Nat × Nat)) × List (Nat × Nat) :=
  match env.standing cid with
  | .error e => (.error e, [])
  | .ok none => (.ok none, [])
  | .ok (some data) =>
    match dataProducts data with
    | none => (.ok none, [])
    | some ps =>
      let items := buildItems ps dayKey
      if items.isEmpty then (.ok none, [])
      else
        match env.createDraft cid items with
        | .error e => (.error e, [])
        | .ok did =>
          match env.sendInvoice did with
          | .error e => (.error e, [(cid, did)])
          | .ok _ => (.ok (some (cid, did)), [(cid, did)])

/-- The customer loop, threading the `created` accumulator and the list of
drafts created remotely so far.  A thrown error aborts the loop at once. -/
def runCustomers (env : RunEnv) (dayKey : String) :
    List Nat → List (Nat × Nat) → List (Nat × Nat) →
      Except JsErr (List (Nat × Nat)) × List (Nat × Nat)
  | [], created, drafts => (.ok created, drafts)
  | cid :: rest, created, drafts =>
    match processCustomer env dayKey cid with
    | (.error e, d) => (.error e, drafts ++ d)
    | (.ok none, d) => runCustomers env dayKey rest created (drafts ++ d)
    | (.ok (some r), d) => runCustomers env dayKey rest (created ++ [r]) (drafts ++ d)

/-- The route handler: on success the 200 response carries the `created`
array; on any thrown error the catch block sends 500 with only that error.
The second component is the run's remote side effects (drafts created). -/
def runJob (env : RunEnv) (dayKey : String) (customers : List Nat) :
    Except JsErr (List (Nat × Nat)) × List (Nat × Nat) :=
  runCustomers env dayKey customers [] []

/-! ### Concrete values used by the claims -/

/-- The product entry of the claim's stored Preference Document
`\x7bproducts:[\x7bvariantId:111,quantityPerWeekday:\x7bmon:2,tue:0\x7d\x7d]\x7d`. -/
def claimProduct : Json :=
  Json.obj [("variantId", Json.num 111),
    ("quantityPerWeekday", Json.obj [("mon", Json.num 2), ("tue", Json.num 0)])]

def claimDoc : Json := Json.obj [("products", Json.arr [claimProduct])]

/-- The claim's document stored as a standing/weekly metafield. -/
def claimMetafield : Metafield :=
  ⟨801, "standing", "weekly",
   "\x7b\"products\":[\x7b\"variantId\":111,\"quantityPerWeekday\":\x7b\"mon\":2,\"tue\":0\x7d\x7d]\x7d"⟩

/-- The batch-run oracle for the hypothetical world in which customer 42's
document loads as `claimDoc` (i.e. stepping past the `getStanding` crash). -/
def claimEnv : RunEnv :=
  { standing := fun _ => Except.ok (some claimDoc),
    createDraft := fun c _ => Except.ok (9000 + c),
    sendInvoice := fun _ => Except.ok () }

/-- A product entry in the flat shape the handler actually reads:
the weekday quantity directly on the product. -/
def flatProduct : Json := Json.obj [("variantId", Json.num 5), ("mon", Json.num 1)]

def flatDoc : Json := Json.obj [("products", Json.arr [flatProduct])]

/-- A run environment in which customer 2's preference fetch fails with a
503 while every other customer's document orders one unit of variant 5 on
Mondays. -/
def exEnv : RunEnv :=
  { standing := fun c => if c = 2 then Except.error (JsErr.remote 503) else Except.ok (some flatDoc),
    createDraft := fun c _ => Except.ok (100 + c),
    sendInvoice := fun _ => Except.ok () }

/-- A run environment whose invoice call always fails. -/
def invEnv : RunEnv :=
  { standing := fun _ => Except.ok (some flatDoc),
    createDraft := fun _ _ => Except.ok 7,
    sendInvoice := fun _ => Except.error (JsErr.remote 500) }

/-- Three pages of customers: the first two carry `rel="next"` links (the
second also a `rel="previous"` link the matcher must skip), the third none. -/
def pagedEnv : Option String → CustomersPage
  | none =>
    ⟨200,
     "<https://shop.example/admin/api/2024-10/customers.json?limit=250&page_info=T1>; rel=\"next\"",
     [Json.obj [("id", Json.num 1)], Json.obj [("id", Json.num 2)]]⟩
  | some c =>
    if c = "T1" then
      ⟨200,
       "<https://shop.example/x?page_info=T0>; rel=\"previous\", <https://shop.example/x?page_info=T2>; rel=\"next\"",
       [Json.obj [("id", Json.num 3)]]⟩
    else if c = "T2" then ⟨200, "", [Json.obj [("id", Json.num 4)]]⟩
    else ⟨404, "", []⟩

/-! ### Test vectors (FIPS / RFC reference values) -/

example : hexEncode (sha256 (utf8Encode "abc")) =
    "ba7816bf8f01cfea414140de5dae2223b00361a396177a9cb410ff61f20015ad" := by decide

example : hexEncode (hmacSha256 (utf8Encode "secret") (utf8Encode "a=1")) =
    "82b8b502fa852da323a3e5b1bfb10a043ece1551b5c16576d9a995590596389a" := by decide

/-! ### Verifier lemmas and claims C3, C4 -/

theorem compressBlock_length (hv block : List Nat) : (compressBlock hv block).length = 8 := rfl

theorem foldl_compressBlock_length (blocks : List (List Nat)) (hv : List Nat)
    (h : hv.length = 8) : (blocks.foldl compressBlock hv).length = 8 := by
  induction blocks generalizing hv with
  | nil => simpa using h
  | cons b bs ih => exact ih _ (compressBlock_length _ _)

theorem wordsToBytes_length (ws : List Nat) : (wordsToBytes ws).length = 4 * ws.length := by
  induction ws with
  | nil => rfl
  | cons w ws ih =>
    simp only [wordsToBytes, List.map_cons, List.flatten_cons] at ih ⊢
    simp [ih]
    omega

theorem wordsToBytes_lt (ws : List Nat) : ∀ b ∈ wordsToBytes ws, b < 256 := by
  induction ws with
  | nil => intro b hb; simp [wordsToBytes] at hb
  | cons w ws ih =>
    intro b hb
    simp only [wordsToBytes, List.map_cons, List.flatten_cons, List.mem_append] at hb
    rcases hb with hb | hb
    · simp only [List.mem_cons] at hb
      rcases hb with rfl | rfl | rfl | rfl | h
      · exact Nat.mod_lt _ (by omega)
      · exact Nat.mod_lt _ (by omega)
      · exact Nat.mod_lt _ (by omega)
      · exact Nat.mod_lt _ (by omega)
      · simp at h
    · exact ih b hb

theorem sha256_length (msg : List Nat) : (sha256 msg).length = 32 := by
  unfold sha256
  rw [wordsToBytes_length, foldl_compressBlock_length _ _ (by decide)]

theorem sha256_lt (msg : List Nat) : ∀ b ∈ sha256 msg, b < 256 :=
  wordsToBytes_lt _

theorem hmacSha256_length (key msg : List Nat) : (hmacSha256 key msg).length = 32 := by
  unfold hmacSha256
  exact sha256_length _

theorem hmacSha256_lt (key msg : List Nat) : ∀ b ∈ hmacSha256 key msg, b < 256 := by
  unfold hmacSha256
  exact sha256_lt _

theorem hexVal_hexDigit : ∀ n < 16, hexVal (hexDigit n) = some n := by decide

theorem hexEncode_data (bs : List Nat) :
    (hexEncode bs).data = (bs.map (fun b => [hexDigit (b / 16), hexDigit (b % 16)])).flatten := rfl

theorem bufFromHex_hexEncode (bs : List Nat) (h : ∀ b ∈ bs, b < 256) :
    bufFromHex (hexEncode bs) = bs := by
  induction bs with
  | nil => rfl
  | cons b bs ih =>
    have hb : b < 256 := h b (List.mem_cons_self _ _)
    have hdiv : b / 16 < 16 := by omega
    have hmod : b % 16 < 16 := Nat.mod_lt _ (by omega)
    have hrest : bufFromHex (hexEncode bs) = bs := ih (fun x hx => h x (List.mem_cons_of_mem _ hx))
    simp only [bufFromHex, hexEncode_data, List.map_cons, List.flatten_cons] at hrest ⊢
    simp only [List.cons_append, List.append_eq, List.nil_append, hexDecodeChars,
      hexVal_hexDigit _ hdiv, hexVal_hexDigit _ hmod]
    rw [hrest]
    congr 1
    omega

theorem hexEncode_length (bs : List Nat) : (hexEncode bs).length = 2 * bs.length := by
  show ((bs.map (fun b => [hexDigit (b / 16), hexDigit (b % 16)])).flatten).length = 2 * bs.length
  induction bs with
  | nil => rfl
  | cons b bs ih =>
    simp only [List.map_cons, List.flatten_cons, List.length_append, ih]
    simp
    omega

theorem correctSignature_ne_empty (sec : String) (params : List (String × String)) :
    correctSignature sec params ≠ "" := by
  intro h
  have : (correctSignature sec params).length = 0 := by rw [h]; rfl
  rw [correctSignature, hexEncode_length, hmacSha256_length] at this
  omega

theorem bufFromHex_correctSignature (sec : String) (params : List (String × String)) :
    bufFromHex (correctSignature sec params) =
      hmacSha256 (utf8Encode sec) (utf8Encode (buildMessage params)) :=
  bufFromHex_hexEncode _ (hmacSha256_lt _ _)

theorem verifyProxy_accepts (sec : String) (params : List (String × String)) :
    verifyProxy (some sec) params (some (correctSignature sec params)) = Except.ok true := by
  simp only [verifyProxy]
  rw [if_neg (correctSignature_ne_empty sec params)]
  simp [correctSignature]

theorem verifyProxy_rejects (sec : String) (params : List (String × String)) (sig : String)
    (h : bufFromHex sig ≠ bufFromHex (correctSignature sec params)) :
    verifyProxy (some sec) params (some sig) = Except.ok false := by
  by_cases hs : sig = ""
  · subst hs; rfl
  · simp only [verifyProxy]
    rw [if_neg hs]
    show Except.ok
        (if (bufFromHex sig).length = (bufFromHex (correctSignature sec params)).length then
          decide (bufFromHex sig = bufFromHex (correctSignature sec params))
        else false) = Except.ok false
    by_cases hl :
        (bufFromHex sig).length = (bufFromHex (correctSignature sec params)).length
    · rw [if_pos hl]
      simp [h]
    · rw [if_neg hl]

theorem verifyProxy_length_mismatch (sec : String) (params : List (String × String))
    (sig : String) (h : (bufFromHex sig).length ≠ 32) :
    verifyProxy (some sec) params (some sig) = Except.ok false := by
  apply verifyProxy_rejects
  intro he
  apply h
  rw [he, bufFromHex_correctSignature, hmacSha256_length]

theorem verifyProxy_no_secret (params : List (String × String)) (sig : String) (h : sig ≠ "") :
    verifyProxy none params (some sig) = Except.error JsErr.typeError := by
  simp only [verifyProxy]
  rw [if_neg h]

/-- C3 (amended): for every parameter set P and secret S, `verifyProxy`
accepts the signature obtained by sorting P's keys, concatenating `key=value`
pairs, computing HMAC-SHA-256 with S and hex-encoding the digest; and it
rejects a provided signature exactly when that signature's Node-style hex
decoding differs from the digest bytes — so any alteration of P, S or the
signature that changes those decoded bytes is rejected.  (The original claim
— rejection for *any* single-character alteration of the signature — fails:
hex decoding is case-insensitive, see the counterexample.) -/
theorem C3_verify_amended (sec : String) (params : List (String × String)) (sig' : String) :
    verifyProxy (some sec) params (some (correctSignature sec params)) = Except.ok true ∧
    (bufFromHex sig' ≠ bufFromHex (correctSignature sec params) →
      verifyProxy (some sec) params (some sig') = Except.ok false) :=
  ⟨verifyProxy_accepts sec params, verifyProxy_rejects sec params sig'⟩

/-- Witness for C3 at secret "secret" and parameters [("a","1")]: the correct
signature is accepted and the signature "00" (whose decoded bytes differ from
the digest) is rejected. -/
theorem C3_witness :
    verifyProxy (some "secret") [("a", "1")] (some (correctSignature "secret" [("a", "1")])) =
      Except.ok true ∧
    verifyProxy (some "secret") [("a", "1")] (some "00") = Except.ok false :=
  ⟨(C3_verify_amended "secret" [("a", "1")] "00").1,
   (C3_verify_amended "secret" [("a", "1")] "00").2 (by decide)⟩

/-- Counterexample to C3 as stated: with secret "secret" and parameters
[("a","1")], the correct signature is
"82b8b502fa852da323a3e5b1bfb10a043ece1551b5c16576d9a995590596389a"; altering
its single character at index 2 from 'b' to 'B' yields a different string
that `verifyProxy` still accepts, because Node's hex decoding is
case-insensitive. -/
theorem C3_counterexample :
    correctSignature "secret" [("a", "1")] =
      "82b8b502fa852da323a3e5b1bfb10a043ece1551b5c16576d9a995590596389a" ∧
    "82B8b502fa852da323a3e5b1bfb10a043ece1551b5c16576d9a995590596389a" ≠
      "82b8b502fa852da323a3e5b1bfb10a043ece1551b5c16576d9a995590596389a" ∧
    verifyProxy (some "secret") [("a", "1")]
      (some "82B8b502fa852da323a3e5b1bfb10a043ece1551b5c16576d9a995590596389a") =
      Except.ok true :=
  ⟨by decide, by decide, by decide⟩

/-- C4 (amended): `verifyProxy` returns false without throwing when the
signature is absent or empty, and whenever the signature's greedily
hex-decoded byte string has a length other than the 32 digest bytes; but a
signature whose hex-decodable prefix equals the digest is accepted even when
trailing non-hex characters make its character length differ from the
digest's (see the counterexample), and when the shared secret is unset
`verifyProxy` throws a TypeError (caught only by the route handler) instead
of returning false. -/
theorem C4_error_handling_amended (sec : String) (params : List (String × String))
    (sig : String) :
    verifyProxy (some sec) params none = Except.ok false ∧
    verifyProxy (some sec) params (some "") = Except.ok false ∧
    ((bufFromHex sig).length ≠ 32 →
      verifyProxy (some sec) params (some sig) = Except.ok false) ∧
    (sig ≠ "" → verifyProxy none params (some sig) = Except.error JsErr.typeError) :=
  ⟨rfl, rfl, verifyProxy_length_mismatch sec params sig, verifyProxy_no_secret params sig⟩

/-- Witness for C4 at concrete inputs: absent and empty signatures are
rejected without an exception, the malformed signature "abc" (which decodes
to one byte) is rejected, and with the secret unset a TypeError is thrown. -/
theorem C4_witness :
    verifyProxy (some "secret") [("a", "1")] none = Except.ok false ∧
    verifyProxy (some "secret") [("a", "1")] (some "") = Except.ok false ∧
    verifyProxy (some "secret") [("a", "1")] (some "abc") = Except.ok false ∧
    verifyProxy none [("a", "1")] (some "abc") = Except.error JsErr.typeError := by
  obtain ⟨h1, h2, h3, h4⟩ := C4_error_handling_amended "secret" [("a", "1")] "abc"
  exact ⟨h1, h2, h3 (by decide), h4 (by decide)⟩

/-- Counterexample to C4 as stated: appending the non-hex characters "zz" to
the correct signature yields a 66-character signature whose length differs
from the 64-character digest, yet `verifyProxy` accepts it (Node hex decoding
stops silently at the first invalid character); and with the shared secret
unset `verifyProxy` throws a TypeError instead of returning false. -/
theorem C4_counterexample :
    ("82b8b502fa852da323a3e5b1bfb10a043ece1551b5c16576d9a995590596389azz").length ≠
      (correctSignature "secret" [("a", "1")]).length ∧
    verifyProxy (some "secret") [("a", "1")]
      (some "82b8b502fa852da323a3e5b1bfb10a043ece1551b5c16576d9a995590596389azz") =
      Except.ok true ∧
    verifyProxy none [("a", "1")] (some "ab") = Except.error JsErr.typeError :=
  ⟨by decide, by decide, by decide⟩

/-! ### Call executor lemmas and claims C5, C6, C9 -/

theorem fetchLoop_503 (retries backoffMs : Nat) (ras : Nat → Option Int) :
    ∀ fuel, 0 < fuel → ∀ attempt, attempt + fuel = retries + 1 →
      (fetchLoop (fun i => .response 503 (ras i)) retries backoffMs attempt fuel).attempts =
        fuel ∧
      (fetchLoop (fun i => .response 503 (ras i)) retries backoffMs attempt fuel).outcome =
        .response 503 (ras retries) := by
  intro fuel
  induction fuel with
  | zero => intro h; exact absurd h (by omega)
  | succ n ih =>
    intro _ attempt hsum
    rcases Nat.eq_zero_or_pos n with hn | hn
    · subst hn
      have ha : attempt = retries := by omega
      subst ha
      simp [fetchLoop, isOk, isRetryable]
    · have hlt : attempt < retries := by omega
      have hrec := ih hn (attempt + 1) (by omega)
      simp only [fetchLoop, isOk, isRetryable]
      rw [if_pos (by simp; omega)]
      exact ⟨by simp [hrec.1], by simp [hrec.2]⟩

/-- C5: for every retry policy with `maxAttempts = N` (`N ≥ 1`, i.e.
`retries = N - 1`), a call whose every attempt resolves to HTTP 503 performs
exactly `N` attempts, and the final attempt's retryable response is what the
call returns (the code's "exhausted" outcome) — it is not retried further. -/
theorem C5_always_503 (N : Nat) (hN : 1 ≤ N) (ras : Nat → Option Int) (backoffMs : Nat) :
    (fetchWithRetry (fun i => .response 503 (ras i)) (N - 1) backoffMs).attempts = N ∧
    (fetchWithRetry (fun i => .response 503 (ras i)) (N - 1) backoffMs).outcome =
      FetchOutcome.response 503 (ras (N - 1)) := by
  have h := fetchLoop_503 (N - 1) backoffMs ras N (by omega) 0 (by omega)
  unfold fetchWithRetry
  have heq : N - 1 + 1 = N := by omega
  rw [heq]
  exact h

/-- Witness for C5 at `N = 3` (`retries = 2`): three attempts are made and
the third 503 response is returned. -/
theorem C5_witness :
    1 ≤ 3 ∧
    (fetchWithRetry (fun i => .response 503 ((fun _ => none) i)) (3 - 1) 800).attempts = 3 ∧
    (fetchWithRetry (fun i => .response 503 ((fun _ => none) i)) (3 - 1) 800).outcome =
      FetchOutcome.response 503 none :=
  ⟨by decide, (C5_always_503 3 (by decide) (fun _ => none) 800).1,
   (C5_always_503 3 (by decide) (fun _ => none) 800).2⟩

/-- C6 (amended): before a retry, the executor waits `ra * 1000` ms when the
failed response carried a `Retry-After` value that is finite and positive
after `Number(...)` coercion (so `Retry-After: 2` waits exactly 2000 ms ≥
2000 ms), and `backoffMs * 2 ^ attempt` otherwise — including when the header
is carried but zero, negative or non-numeric, which the original claim
("carried a Retry-After value ⇒ wait that many seconds") does not allow. -/
theorem C6_backoff_amended (f : Nat → AttemptResult) (retries backoffMs fuel attempt st : Nat)
    (ra : Option Int) (hf : f attempt = .response st ra) (hok : isOk st = false)
    (hretry : isRetryable st = true) (hlt : attempt < retries) (hfuel : 0 < fuel) :
    (fetchLoop f retries backoffMs attempt fuel).waits.head? =
      some (backoffWait backoffMs attempt ra) ∧
    (∀ n : Int, 0 < n → backoffWait backoffMs attempt (some n) = n.toNat * 1000) ∧
    (∀ n : Int, n ≤ 0 → backoffWait backoffMs attempt (some n) = backoffMs * 2 ^ attempt) ∧
    backoffWait backoffMs attempt none = backoffMs * 2 ^ attempt := by
  refine ⟨?_, ?_, ?_, rfl⟩
  · cases fuel with
    | zero => exact absurd hfuel (by omega)
    | succ n =>
      simp only [fetchLoop, hf]
      rw [if_pos (by simp [hok, hretry, hlt])]
      rfl
  · intro n hn
    simp [backoffWait, hn]
  · intro n hn
    simp [backoffWait, show ¬(0 < n) by omega]

/-- Witness for C6: a 429 response with `Retry-After: 2` at attempt 0 of a
policy with `retries = 1` waits exactly 2000 ms before the next attempt. -/
theorem C6_witness :
    (fetchLoop (fun _ => AttemptResult.response 429 (some 2)) 1 800 0 2).waits.head? =
      some (backoffWait 800 0 (some 2)) ∧
    backoffWait 800 0 (some 2) = 2000 :=
  ⟨(C6_backoff_amended (fun _ => AttemptResult.response 429 (some 2)) 1 800 2 0 429 (some 2)
      rfl rfl rfl (by decide) (by decide)).1,
   by decide⟩

/-- Counterexample to C6 as stated: a 429 response that carries
`Retry-After: 0` (a carried value, and the code always honors the header)
waits `backoffMs * 2 ^ 0 = 800` ms, not `0 * 1000` ms as the claim's
"waits that many seconds" demands. -/
theorem C6_counterexample :
    (fetchWithRetry (fun _ => AttemptResult.response 429 (some 0)) 1 800).waits = [800] ∧
    (800 : Nat) ≠ 0 * 1000 :=
  ⟨by decide, by decide⟩

theorem fetchLoop_ne_exhausted (f : Nat → AttemptResult) (retries backoffMs : Nat) :
    ∀ fuel attempt, attempt ≤ retries → attempt + fuel = retries + 1 →
      (fetchLoop f retries backoffMs attempt fuel).outcome ≠ FetchOutcome.exhausted := by
  intro fuel
  induction fuel with
  | zero => intro attempt h1 h2; exact absurd h2 (by omega)
  | succ n ih =>
    intro attempt h1 h2
    cases hf : f attempt with
    | response st ra =>
      simp only [fetchLoop, hf]
      by_cases hc : (!isOk st && isRetryable st && decide (attempt < retries)) = true
      · rw [if_pos hc]
        have hlt : attempt < retries := by
          simp only [Bool.and_eq_true, decide_eq_true_eq] at hc
          exact hc.2
        exact ih (attempt + 1) (by omega) (by omega)
      · rw [if_neg hc]
        simp
    | netError c =>
      simp only [fetchLoop, hf]
      by_cases hc : retries ≤ attempt
      · rw [if_pos hc]
        simp
      · rw [if_neg hc]
        exact ih (attempt + 1) (by omega) (by omega)

/-- C9: for every number of retries, every attempt either returns the
response, rethrows the attempt's error, or continues to the next attempt,
and the final iteration always returns or throws; the trailing
`throw new Error("fetchWithRetry exhausted attempts")` after the loop is
unreachable. -/
theorem C9_trailing_throw_unreachable (f : Nat → AttemptResult) (retries backoffMs : Nat) :
    (fetchWithRetry f retries backoffMs).outcome ≠ FetchOutcome.exhausted :=
  fetchLoop_ne_exhausted f retries backoffMs (retries + 1) 0 (by omega) (by omega)

/-! ### Claims C1, C2 -/

/-- C1 (code bug): with the claim's stored document, a Monday run creates no
draft order at all.  First, `getStanding` throws `ReferenceError` for any
customer with a stored document (the `m.value` slip), aborting the run; and
even granting the document loads, the handler computes the quantity as
`Number(p["mon"] || 0)` on the product entry itself — not inside its
`quantityPerWeekday` object — so the quantity is 0, the item is filtered
out, and no order is created (line items `[]` on Monday and on Tuesday
alike, `runJob` yielding an empty `created` list). -/
theorem C1_monday_no_order :
    getStanding [claimMetafield] = Except.error JsErr.referenceErrorM ∧
    dataProducts claimDoc = some [claimProduct] ∧
    jsGet claimProduct "quantityPerWeekday" =
      some (Json.obj [("mon", Json.num 2), ("tue", Json.num 0)]) ∧
    itemQuantity claimProduct "mon" = some 0 ∧
    buildItems [claimProduct] "mon" = [] ∧
    buildItems [claimProduct] "tue" = [] ∧
    runJob claimEnv "mon" [42] = (Except.ok [], []) :=
  ⟨rfl, rfl, rfl, rfl, rfl, rfl, rfl⟩

/-- C2 (code bug): for every metafields list, `getStanding` throws
`ReferenceError` (`m` is not defined) whenever a standing/weekly entry
exists — the stored document is never parsed and even a well-formed value
crashes the caller (the route maps it to a 500); only when no entry exists
does it return null. -/
theorem C2_getStanding_throws :
    (∀ mfs : List Metafield,
      getStanding mfs =
        if (findStanding mfs).isSome then Except.error JsErr.referenceErrorM
        else Except.ok none) ∧
    getStanding [claimMetafield] = Except.error JsErr.referenceErrorM ∧
    getStanding [] = Except.ok none := by
  refine ⟨fun mfs => ?_, rfl, rfl⟩
  unfold getStanding
  cases h : findStanding mfs <;> simp [h]

/-! ### Claim C7 -/

theorem iterateCustomers_step (env : Option String → CustomersPage) (fuel : Nat)
    (cursor : Option String) :
    iterateCustomers env (fuel + 1) cursor =
      if isOk (env cursor).status then
        match extractNextStr (env cursor).linkHeader with
        | some tok =>
          (IterEvent.fetched cursor ::
            ((env cursor).customers.map (fun c => IterEvent.yielded (jsGet c "id")) ++
              (iterateCustomers env fuel (some tok)).1),
           (iterateCustomers env fuel (some tok)).2)
        | none =>
          (IterEvent.fetched cursor ::
            (env cursor).customers.map (fun c => IterEvent.yielded (jsGet c "id")),
           IterEnd.done)
      else ([IterEvent.fetched cursor], IterEnd.threw (env cursor).status) := rfl

theorem iterateCustomers_chain (env : Option String → CustomersPage) :
    ∀ (tokens : List String) (cursor : Option String),
      (∀ cur ∈ cursorChain cursor tokens, isOk (env cur).status = true) →
      chainLinks env cursor tokens = true →
      iterateCustomers env (tokens.length + 1) cursor =
        (chainTrace env cursor tokens, IterEnd.done) := by
  intro tokens
  induction tokens with
  | nil =>
    intro cursor hok hlink
    have h1 : isOk (env cursor).status = true := hok cursor (by simp [cursorChain])
    have hnone : extractNextStr (env cursor).linkHeader = none := by
      simpa [chainLinks, Option.isNone_iff_eq_none] using hlink
    rw [iterateCustomers_step, if_pos h1, hnone]
    simp [chainTrace]
  | cons t ts ih =>
    intro cursor hok hlink
    have h1 : isOk (env cursor).status = true := hok cursor (by simp [cursorChain])
    simp only [chainLinks, Bool.and_eq_true, beq_iff_eq] at hlink
    obtain ⟨hl1, hl2⟩ := hlink
    have hsub : ∀ cur ∈ cursorChain (some t) ts, isOk (env cur).status = true := by
      intro cur hc
      exact hok cur (by simp [cursorChain, hc])
    have hrec := ih (some t) hsub hl2
    simp only [List.length_cons]
    rw [iterateCustomers_step, if_pos h1, hl1]
    simp [chainTrace, hrec]

theorem filterMap_evYield_yielded (g : Json → Option Json) (l : List Json) :
    List.filterMap (evYield ∘ fun x => IterEvent.yielded (g x)) l = l.map g := by
  induction l with
  | nil => rfl
  | cons x xs ih => simp [List.filterMap_cons, Function.comp, evYield, ih]

theorem chainTrace_yields (env : Option String → CustomersPage) :
    ∀ (tokens : List String) (cursor : Option String),
      (chainTrace env cursor tokens).filterMap evYield = chainIds env cursor tokens := by
  intro tokens
  induction tokens with
  | nil =>
    intro cursor
    simp [chainTrace, chainIds, evYield, List.filterMap_cons, List.filterMap_map,
      filterMap_evYield_yielded]
  | cons t ts ih =>
    intro cursor
    simp [chainTrace, chainIds, evYield, List.filterMap_cons, List.filterMap_append,
      List.filterMap_map, filterMap_evYield_yielded, ih]

/-- C7: given pages forming a finite cursor chain — every page but the last
carrying a `rel="next"` link — the iterator emits, page by page, one fetch
followed by all of that page's customer ids in response order before the
next fetch occurs, terminates after the last page, and the ids yielded over
the whole run are exactly the concatenation of all pages' ids. -/
theorem C7_pagination (env : Option String → CustomersPage) (tokens : List String)
    (hok : ∀ cur ∈ cursorChain none tokens, isOk (env cur).status = true)
    (hlink : chainLinks env none tokens = true) :
    iterateCustomers env (tokens.length + 1) none =
      (chainTrace env none tokens, IterEnd.done) ∧
    (chainTrace env none tokens).filterMap evYield = chainIds env none tokens :=
  ⟨iterateCustomers_chain env tokens none hok hlink, chainTrace_yields env tokens none⟩

/-- Witness for C7 on three concrete pages with ids [1,2], [3], [4]: the
trace is as predicted and the yielded ids are the concatenation. -/
theorem C7_witness :
    iterateCustomers pagedEnv 3 none = (chainTrace pagedEnv none ["T1", "T2"], IterEnd.done) ∧
    chainIds pagedEnv none ["T1", "T2"] =
      [some (Json.num 1), some (Json.num 2), some (Json.num 3), some (Json.num 4)] :=
  ⟨(C7_pagination pagedEnv ["T1", "T2"] (by decide) (by decide)).1, rfl⟩

/-! ### Claims C8, C10 -/

theorem runCustomers_append (env : RunEnv) (dayKey : String) (xs ys : List Nat)
    (created drafts : List (Nat × Nat)) :
    runCustomers env dayKey (xs ++ ys) created drafts =
      match runCustomers env dayKey xs created drafts with
      | (.ok cr, tr) => runCustomers env dayKey ys cr tr
      | (.error e, tr) => (.error e, tr) := by
  induction xs generalizing created drafts with
  | nil => simp [runCustomers]
  | cons c cs ih =>
    simp only [List.cons_append, runCustomers]
    cases hp : processCustomer env dayKey c with
    | mk r d =>
      cases r with
      | error e => rfl
      | ok o =>
        cases o with
        | none => exact ih _ _
        | some r => exact ih _ _

/-- C8: if every customer before `c` completes without a thrown error and
customer `c`'s iteration throws `e`, the whole run aborts: the response is
the 500 carrying exactly that error (and no `created` list), the customers
after `c` are never processed (the result does not mention `post`), and the
draft orders already created for earlier customers — `tr`, plus whatever
draft `c`'s own iteration created — remain as remote side effects, neither
rolled back nor reported. -/
theorem C8_single_failure_aborts (env : RunEnv) (dayKey : String) (pre post : List Nat)
    (c : Nat) (cr tr : List (Nat × Nat)) (e : JsErr)
    (h1 : runCustomers env dayKey pre [] [] = (Except.ok cr, tr))
    (h2 : (processCustomer env dayKey c).1 = Except.error e) :
    runJob env dayKey (pre ++ c :: post) =
      (Except.error e, tr ++ (processCustomer env dayKey c).2) := by
  unfold runJob
  rw [runCustomers_append, h1]
  rcases hp : processCustomer env dayKey c with ⟨r, d⟩
  rw [hp] at h2
  simp only at h2
  subst h2
  simp only [runCustomers, hp]

/-- Witness for C8: customers [1, 2, 3] where customer 2's fetch fails with
a 503 — the run returns only that error while customer 1's draft (id 101)
was created remotely, and customer 3 is never reached. -/
theorem C8_witness :
    runJob exEnv "mon" ([1] ++ 2 :: [3]) =
      (Except.error (JsErr.remote 503), [(1, 101)] ++ (processCustomer exEnv "mon" 2).2) ∧
    (processCustomer exEnv "mon" 2).2 = [] :=
  ⟨C8_single_failure_aborts exEnv "mon" [1] [3] 2 [(1, 101)] [(1, 101)] (JsErr.remote 503)
      (by decide) (by decide), rfl⟩

/-- C10: a `{customerId, draftId}` record reaches the `created` list only
when both the draft-creation call and the invoice call succeeded for that
customer; and when the invoice call fails after a successful creation, the
iteration throws — the draft exists remotely (it is among the run's side
effects) while the aborted run's 500 response carries no record of it. -/
theorem C10_created_after_both (env : RunEnv) (dayKey : String) (c cid did : Nat) :
    ((processCustomer env dayKey c).1 = Except.ok (some (cid, did)) →
      cid = c ∧ env.sendInvoice did = Except.ok () ∧
      ∃ items, env.createDraft c items = Except.ok did) ∧
    (∀ (data : Json) (e : JsErr),
      env.standing c = Except.ok (some data) →
      ∀ ps, dataProducts data = some ps →
      (buildItems ps dayKey).isEmpty = false →
      env.createDraft c (buildItems ps dayKey) = Except.ok did →
      env.sendInvoice did = Except.error e →
      processCustomer env dayKey c = (Except.error e, [(c, did)]) ∧
      runJob env dayKey [c] = (Except.error e, [(c, did)])) := by
  constructor
  · intro h
    unfold processCustomer at h
    cases hs : env.standing c with
    | error e => simp [hs] at h
    | ok o =>
      cases o with
      | none => simp [hs] at h
      | some data =>
        simp only [hs] at h
        cases hd : dataProducts data with
        | none => simp [hd] at h
        | some ps =>
          simp only [hd] at h
          by_cases hi : (buildItems ps dayKey).isEmpty
          · rw [if_pos hi] at h
            simp at h
          · rw [if_neg hi] at h
            cases hc : env.createDraft c (buildItems ps dayKey) with
            | error e => simp [hc] at h
            | ok did' =>
              simp only [hc] at h
              cases hv : env.sendInvoice did' with
              | error e => simp [hv] at h
              | ok u =>
                simp only [hv, Except.ok.injEq, Option.some.injEq,
                  Prod.mk.injEq] at h
                obtain ⟨hcid, hdid⟩ := h
                subst hcid
                subst hdid
                exact ⟨rfl, hv, ⟨buildItems ps dayKey, hc⟩⟩
  · intro data e hs ps hd hi hc hv
    have hp : processCustomer env dayKey c = (Except.error e, [(c, did)]) := by
      unfold processCustomer
      rw [hs]
      simp only [hd, hi, hc, hv, Bool.false_eq_true, if_false]
    refine ⟨hp, ?_⟩
    unfold runJob
    simp only [runCustomers, hp, List.nil_append]

/-- Witness for C10: in `exEnv` customer 1's record (1, 101) implies both
calls succeeded; in `invEnv` the invoice call fails after draft 7 was
created, so the single-customer run aborts with the invoice error while
draft (1, 7) exists remotely and the response reports nothing for it. -/
theorem C10_witness :
    (1 = 1 ∧ exEnv.sendInvoice 101 = Except.ok () ∧
      ∃ items, exEnv.createDraft 1 items = Except.ok 101) ∧
    (processCustomer invEnv "mon" 1 = (Except.error (JsErr.remote 500), [(1, 7)]) ∧
      runJob invEnv "mon" [1] = (Except.error (JsErr.remote 500), [(1, 7)])) :=
  ⟨(C10_created_after_both exEnv "mon" 1 1 101).1 (by decide),
   (C10_created_after_both invEnv "mon" 1 1 7).2 flatDoc (JsErr.remote 500) rfl
      [flatProduct] rfl rfl rfl rfl⟩

end Spec2Proof
